import Mathlib

/-
  Verification development for the ANOVA-Calculator engine.

  The numeric core (one_way_logic.py, two_way_logic.py, post_hoc.py) is
  embedded shallowly over exact rationals: every float computation of the
  source becomes the corresponding exact computation on ℚ, so an exact
  equality proved here subsumes every floating-point tolerance stated in
  the specification.  External probability routines (scipy stats.f.sf,
  stats.ttest_ind, stats.tukey_hsd) are modelled as function parameters,
  since the spec treats the ProbabilityProvider as an external
  collaborator.  Standard errors (np.std / sqrt) are real square roots,
  irrational in general; no verified property mentions them, and where the
  source compares a square root against zero (the Scheffe guard) the
  comparison is modelled on the radicand, which has the same truth value.
  String formatting helpers (summary tables, CSV) are presentation only
  and are not modelled.
-/

/-- An F statistic in the source is either an ordinary float or the IEEE
value float("inf"), produced when the error mean square is zero.  The
embedding makes the two cases explicit. -/
inductive FStat where
  | inf : FStat
  | val : ℚ → FStat
deriving DecidableEq

/-- np.mean of a one-dimensional array, as exact rational division
(sum divided by length; Lean division by zero yields 0, which is only ever
hit outside the validated states). -/
def mean (xs : List ℚ) : ℚ := xs.sum / (xs.length : ℚ)

/-- The distinct ValueError raises in OneWayANOVA.__init__
(one_way_logic.py lines 36-49), as an explicit error type. -/
inductive OneWayError where
  | nameMismatch : OneWayError
  | tooFewGroups : OneWayError
  | emptyGroup : ℕ → OneWayError
deriving DecidableEq

/-- The state a successfully constructed OneWayANOVA instance carries:
self.groups, self._group_names, self.k, self.n_total. -/
structure OneWayANOVA where
  groups : List (List ℚ)
  groupNames : List String
  k : ℕ
  nTotal : ℕ
deriving DecidableEq

/-- Auto-generated names "Group i" (1-indexed), one_way_logic.py line 28. -/
def defaultNames (k : ℕ) : List String :=
  (List.range k).map (fun i => "Group " ++ toString (i + 1))

/-- The tail of OneWayANOVA.__init__ after name handling: the group-count
check (line 44), the per-group emptiness scan (lines 47-49, first failing
index reported), and the final field assignments (lines 51-52). -/
def OneWayANOVA.checkGroups (data : List (List ℚ)) (names : List String) :
    Except OneWayError OneWayANOVA :=
  if data.length < 2 then .error .tooFewGroups
  else
    match data.findIdx? List.isEmpty with
    | some i => .error (.emptyGroup i)
    | none => .ok ⟨data, names, data.length, (data.map List.length).sum⟩

/-- OneWayANOVA.__init__ for already-numeric list input (the dict branch
differs only in where the names come from).  The caller-supplied name list
is checked first (lines 36-42), exactly as in the source. -/
def OneWayANOVA.init (data : List (List ℚ)) (groupNames : Option (List String)) :
    Except OneWayError OneWayANOVA :=
  match groupNames with
  | some ns =>
      if ns.length ≠ data.length then .error .nameMismatch
      else OneWayANOVA.checkGroups data ns
  | none => OneWayANOVA.checkGroups data (defaultNames data.length)

/-- The dictionary returned by OneWayANOVA.calculate, minus the summary
string (pure formatting) and group_se (real square roots; unused by every
verified property). -/
structure OneWayResult where
  ssBetween : ℚ
  ssWithin : ℚ
  ssTotal : ℚ
  dfBetween : ℤ
  dfWithin : ℤ
  dfTotal : ℤ
  msBetween : ℚ
  msWithin : ℚ
  F : FStat
  pValue : ℚ
  groupMeans : List ℚ
  groupNames : List String
  grandMean : ℚ
  residuals : List ℚ
deriving DecidableEq

/-- OneWayANOVA.calculate (one_way_logic.py lines 55-119).  The p-value
provider fsf stands for stats.f.sf. -/
def OneWayANOVA.calculate (st : OneWayANOVA) (fsf : FStat → ℤ → ℤ → ℚ) :
    OneWayResult :=
  let grandMean : ℚ := (st.groups.map List.sum).sum / (st.nTotal : ℚ)
  let ssBetween : ℚ :=
    (st.groups.map (fun g => (g.length : ℚ) * (mean g - grandMean) ^ 2)).sum
  let ssWithin : ℚ :=
    (st.groups.map (fun g => (g.map (fun x => (x - mean g) ^ 2)).sum)).sum
  let ssTotal : ℚ :=
    (st.groups.map (fun g => (g.map (fun x => (x - grandMean) ^ 2)).sum)).sum
  let dfBetween : ℤ := (st.k : ℤ) - 1
  let dfWithin : ℤ := (st.nTotal : ℤ) - (st.k : ℤ)
  let dfTotal : ℤ := (st.nTotal : ℤ) - 1
  let msBetween : ℚ := ssBetween / (dfBetween : ℚ)
  let msWithin : ℚ := if 0 < dfWithin then ssWithin / (dfWithin : ℚ) else 0
  let fStat : FStat := if 0 < msWithin then .val (msBetween / msWithin) else .inf
  { ssBetween := ssBetween
    ssWithin := ssWithin
    ssTotal := ssTotal
    dfBetween := dfBetween
    dfWithin := dfWithin
    dfTotal := dfTotal
    msBetween := msBetween
    msWithin := msWithin
    F := fStat
    pValue := fsf fStat dfBetween dfWithin
    groupMeans := st.groups.map mean
    groupNames := st.groupNames
    grandMean := grandMean
    residuals := (st.groups.map (fun g => g.map (fun x => x - mean g))).flatten }

/-- OneWayANOVA.calculate guarded by the mathematical definedness of its
operations: the mean of every group must be a true average (no empty
group) and the division by df_between must have a nonzero divisor.  The
claim that calculation never fails after construction is proved against
this guard. -/
def OneWayANOVA.calculateQ (st : OneWayANOVA) (fsf : FStat → ℤ → ℤ → ℚ) :
    Option OneWayResult :=
  if st.groups.any List.isEmpty then none
  else if (st.k : ℤ) - 1 ≤ 0 then none
  else some (st.calculate fsf)

/-- The failures of TwoWayANOVA.__init__: the two IndexError sites
(data[0] on empty data, data[0][0] on an empty first row, lines 22-23)
and the five ValueError raises of _validate (two_way_logic.py lines
31-51). -/
inductive TwoWayError where
  | indexError : TwoWayError
  | factorALevels : TwoWayError
  | factorBLevels : TwoWayError
  | replicates : TwoWayError
  | rowColumns : ℕ → TwoWayError
  | cellReplicates : ℕ → ℕ → TwoWayError
deriving DecidableEq

/-- Whether the error is one of the ValueError raises of _validate, as
opposed to the IndexError escaping from the shape reads in __init__. -/
def TwoWayError.isValidation : TwoWayError → Bool
  | .indexError => false
  | _ => true

/-- The state of a constructed TwoWayANOVA instance: self.data,
self.factor_a_name, self.factor_b_name, self.a, self.b, self.r, self.N. -/
structure TwoWayANOVA where
  data : List (List (List ℚ))
  factorAName : String
  factorBName : String
  a : ℕ
  b : ℕ
  r : ℕ
  N : ℕ
deriving DecidableEq

/-- The inner loop of _validate over the cells of row i (lines 46-51):
first cell whose replicate count differs from r is reported. -/
def TwoWayANOVA.checkCells (i : ℕ) (r : ℕ) : ℕ → List (List ℚ) → Option TwoWayError
  | _, [] => none
  | j, c :: cs =>
      if c.length ≠ r then some (.cellReplicates i j)
      else TwoWayANOVA.checkCells i r (j + 1) cs

/-- The outer loop of _validate over rows (lines 40-51): each row must
have exactly b columns, then its cells are scanned. -/
def TwoWayANOVA.checkRows (b r : ℕ) : ℕ → List (List (List ℚ)) → Option TwoWayError
  | _, [] => none
  | i, row :: rest =>
      if row.length ≠ b then some (.rowColumns i)
      else
        match TwoWayANOVA.checkCells i r 0 row with
        | some e => some e
        | none => TwoWayANOVA.checkRows b r (i + 1) rest

/-- TwoWayANOVA._validate (lines 29-51), in source order: factor A level
count, factor B level count, replicate count, then the rectangularity
loops. -/
def TwoWayANOVA.validate (st : TwoWayANOVA) : Option TwoWayError :=
  if st.a < 2 then some .factorALevels
  else if st.b < 2 then some .factorBLevels
  else if st.r < 2 then some .replicates
  else TwoWayANOVA.checkRows st.b st.r 0 st.data

/-- The tail of TwoWayANOVA.__init__: run _validate on the assembled
state, propagating its error if any. -/
def TwoWayANOVA.finishInit (st : TwoWayANOVA) : Except TwoWayError TwoWayANOVA :=
  match st.validate with
  | some e => .error e
  | none => .ok st

/-- TwoWayANOVA.__init__ (lines 16-26): a = len(data), b = len(data[0]),
r = len(data[0][0]) — the two indexings fail with IndexError on an empty
data list or an empty first row — then _validate. -/
def TwoWayANOVA.init (data : List (List (List ℚ)))
    (factorAName factorBName : String) : Except TwoWayError TwoWayANOVA :=
  match data with
  | [] => .error .indexError
  | row0 :: _ =>
      match row0 with
      | [] => .error .indexError
      | _ :: _ =>
          TwoWayANOVA.finishInit
            ⟨data, factorAName, factorBName, data.length, row0.length,
              row0.headI.length, data.length * row0.length * row0.headI.length⟩

/-- Cell (i, j) of the grid: self.data[i][j] (out-of-range reads default
to the empty list; valid states never hit the default). -/
def TwoWayANOVA.cell (st : TwoWayANOVA) (i j : ℕ) : List ℚ :=
  (st.data.getD i []).getD j []

/-- Sum of the replicates in cell (i, j). -/
def TwoWayANOVA.cellSum (st : TwoWayANOVA) (i j : ℕ) : ℚ :=
  (st.cell i j).sum

/-- Sum of every observation in the grid. -/
def TwoWayANOVA.grandTotal (st : TwoWayANOVA) : ℚ :=
  ∑ i ∈ Finset.range st.a, ∑ j ∈ Finset.range st.b, st.cellSum i j

/-- arr.mean(): the grand mean over all N = a*b*r observations. -/
def TwoWayANOVA.grandMean (st : TwoWayANOVA) : ℚ :=
  st.grandTotal / (st.N : ℚ)

/-- arr.mean(axis=(1,2)): mean of row i over its b*r observations. -/
def TwoWayANOVA.rowMean (st : TwoWayANOVA) (i : ℕ) : ℚ :=
  (∑ j ∈ Finset.range st.b, st.cellSum i j) / ((st.b * st.r : ℕ) : ℚ)

/-- arr.mean(axis=(0,2)): mean of column j over its a*r observations. -/
def TwoWayANOVA.colMean (st : TwoWayANOVA) (j : ℕ) : ℚ :=
  (∑ i ∈ Finset.range st.a, st.cellSum i j) / ((st.a * st.r : ℕ) : ℚ)

/-- arr.mean(axis=2): mean of the r replicates of cell (i, j). -/
def TwoWayANOVA.cellMean (st : TwoWayANOVA) (i j : ℕ) : ℚ :=
  st.cellSum i j / (st.r : ℚ)

/-- The dictionary returned by TwoWayANOVA.calculate, minus the summary
string (formatting) and se_a/se_b (real square roots; unused by every
verified property). -/
structure TwoWayResult where
  ssA : ℚ
  ssB : ℚ
  ssAB : ℚ
  ssError : ℚ
  ssTotal : ℚ
  dfA : ℤ
  dfB : ℤ
  dfAB : ℤ
  dfError : ℤ
  dfTotal : ℤ
  msA : ℚ
  msB : ℚ
  msAB : ℚ
  msError : ℚ
  fA : FStat
  fB : FStat
  fAB : FStat
  pA : ℚ
  pB : ℚ
  pAB : ℚ
  cellMeans : List (List ℚ)
  rowMeans : List ℚ
  colMeans : List ℚ
  grandMean : ℚ
  residuals : List ℚ
  groupsByA : List (List ℚ)
  groupsByB : List (List ℚ)
  aNames : List String
  bNames : List String
deriving DecidableEq

/-- TwoWayANOVA.calculate (two_way_logic.py lines 54-142).  The p-value
provider fsf stands for stats.f.sf. -/
def TwoWayANOVA.calculate (st : TwoWayANOVA) (fsf : FStat → ℤ → ℤ → ℚ) :
    TwoWayResult :=
  let G := st.grandMean
  let ssA : ℚ :=
    ((st.b * st.r : ℕ) : ℚ) * ∑ i ∈ Finset.range st.a, (st.rowMean i - G) ^ 2
  let ssB : ℚ :=
    ((st.a * st.r : ℕ) : ℚ) * ∑ j ∈ Finset.range st.b, (st.colMean j - G) ^ 2
  let ssAB : ℚ :=
    (st.r : ℚ) * ∑ i ∈ Finset.range st.a, ∑ j ∈ Finset.range st.b,
      (st.cellMean i j - st.rowMean i - st.colMean j + G) ^ 2
  let ssE : ℚ :=
    ∑ i ∈ Finset.range st.a, ∑ j ∈ Finset.range st.b,
      ((st.cell i j).map (fun x => (x - st.cellMean i j) ^ 2)).sum
  let ssT : ℚ :=
    ∑ i ∈ Finset.range st.a, ∑ j ∈ Finset.range st.b,
      ((st.cell i j).map (fun x => (x - G) ^ 2)).sum
  let dfA : ℤ := (st.a : ℤ) - 1
  let dfB : ℤ := (st.b : ℤ) - 1
  let dfAB : ℤ := ((st.a : ℤ) - 1) * ((st.b : ℤ) - 1)
  let dfE : ℤ := (st.a : ℤ) * (st.b : ℤ) * ((st.r : ℤ) - 1)
  let dfT : ℤ := (st.N : ℤ) - 1
  let msA : ℚ := ssA / (dfA : ℚ)
  let msB : ℚ := ssB / (dfB : ℚ)
  let msAB : ℚ := ssAB / (dfAB : ℚ)
  let msE : ℚ := if 0 < dfE then ssE / (dfE : ℚ) else 0
  let fA : FStat := if 0 < msE then .val (msA / msE) else .inf
  let fB : FStat := if 0 < msE then .val (msB / msE) else .inf
  let fAB : FStat := if 0 < msE then .val (msAB / msE) else .inf
  { ssA := ssA
    ssB := ssB
    ssAB := ssAB
    ssError := ssE
    ssTotal := ssT
    dfA := dfA
    dfB := dfB
    dfAB := dfAB
    dfError := dfE
    dfTotal := dfT
    msA := msA
    msB := msB
    msAB := msAB
    msError := msE
    fA := fA
    fB := fB
    fAB := fAB
    pA := fsf fA dfA dfE
    pB := fsf fB dfB dfE
    pAB := fsf fAB dfAB dfE
    cellMeans := (List.range st.a).map (fun i =>
      (List.range st.b).map (fun j => st.cellMean i j))
    rowMeans := (List.range st.a).map st.rowMean
    colMeans := (List.range st.b).map st.colMean
    grandMean := G
    residuals := ((List.range st.a).map (fun i =>
      ((List.range st.b).map (fun j =>
        (st.cell i j).map (fun x => x - st.cellMean i j))).flatten)).flatten
    groupsByA := (List.range st.a).map (fun i =>
      ((List.range st.b).map (fun j => st.cell i j)).flatten)
    groupsByB := (List.range st.b).map (fun j =>
      ((List.range st.a).map (fun i => st.cell i j)).flatten)
    aNames := (List.range st.a).map (fun i =>
      st.factorAName ++ " " ++ toString (i + 1))
    bNames := (List.range st.b).map (fun j =>
      st.factorBName ++ " " ++ toString (j + 1)) }

/-- itertools.combinations(range k, 2), and equally the nested loops of
tukey_hsd: the unordered pairs (i, j) with i < j < k, in lexicographic
order. -/
def pairs (k : ℕ) : List (ℕ × ℕ) :=
  (List.range k).flatMap (fun i => ((List.range k).drop (i + 1)).map (fun j => (i, j)))

/-- One row of the tukey_hsd table (post_hoc.py lines 39-47). -/
structure TukeyRow where
  group1 : String
  group2 : String
  meanDiff : ℚ
  pValue : ℚ
  ciLow : ℚ
  ciHigh : ℚ
  significant : Bool
deriving DecidableEq

/-- tukey_hsd (post_hoc.py lines 18-50), returning the structured table.
The provider stands for stats.tukey_hsd plus its confidence_interval
accessor: applied to the group list and a pair (i, j) it yields the
p-value and the 95 percent confidence bounds for that pair. -/
def tukey_hsd (provider : List (List ℚ) → ℕ → ℕ → ℚ × ℚ × ℚ)
    (groups : List (List ℚ)) (groupNames : List String) : List TukeyRow :=
  let k := groups.length
  (pairs k).map (fun p =>
    let pv := (provider groups p.1 p.2).1
    { group1 := groupNames.getD p.1 ""
      group2 := groupNames.getD p.2 ""
      meanDiff := mean (groups.getD p.1 []) - mean (groups.getD p.2 [])
      pValue := pv
      ciLow := (provider groups p.1 p.2).2.1
      ciHigh := (provider groups p.1 p.2).2.2
      significant := pv < (5 / 100 : ℚ) })

/-- One row of the bonferroni table (post_hoc.py lines 78-86). -/
structure BonfRow where
  group1 : String
  group2 : String
  meanDiff : ℚ
  tStat : ℚ
  pRaw : ℚ
  pAdjusted : ℚ
  significant : Bool
deriving DecidableEq

/-- The body of the bonferroni loop for one pair (post_hoc.py lines
74-86).  tTest stands for stats.ttest_ind, returning the t statistic and
the raw two-sided p-value. -/
def bonferroniRow (tTest : List ℚ → List ℚ → ℚ × ℚ)
    (groups : List (List ℚ)) (groupNames : List String) (m : ℕ) (alpha : ℚ)
    (p : ℕ × ℕ) : BonfRow :=
  let gi := groups.getD p.1 []
  let gj := groups.getD p.2 []
  let pRaw := (tTest gi gj).2
  let pAdj := min (pRaw * (m : ℚ)) 1
  { group1 := groupNames.getD p.1 ""
    group2 := groupNames.getD p.2 ""
    meanDiff := mean gi - mean gj
    tStat := (tTest gi gj).1
    pRaw := pRaw
    pAdjusted := pAdj
    significant := pAdj < alpha }

/-- bonferroni (post_hoc.py lines 56-89), returning the structured table.
m = k*(k-1)//2 is the number of comparisons. -/
def bonferroni (tTest : List ℚ → List ℚ → ℚ × ℚ)
    (groups : List (List ℚ)) (groupNames : List String) (alpha : ℚ) :
    List BonfRow :=
  let k := groups.length
  let m := k * (k - 1) / 2
  (pairs k).map (bonferroniRow tTest groups groupNames m alpha)

/-- One row of the scheffe table (post_hoc.py lines 128-135). -/
structure ScheffeRow where
  group1 : String
  group2 : String
  meanDiff : ℚ
  fScheffe : ℚ
  pValue : ℚ
  significant : Bool
deriving DecidableEq

/-- The pooled error term used by scheffe (post_hoc.py lines 115-119):
the caller-supplied pair is used only when BOTH ms_within and df_within
are given; otherwise both are recomputed from the group set as
df = N - k and MS = pooled within-group sum of squares over df. -/
def scheffePooled (groups : List (List ℚ))
    (msWithin : Option ℚ) (dfWithin : Option ℤ) : ℚ × ℤ :=
  match msWithin, dfWithin with
  | some ms, some df => (ms, df)
  | _, _ =>
      let k := groups.length
      let N := (groups.map List.length).sum
      let df : ℤ := (N : ℤ) - (k : ℤ)
      let ssW : ℚ :=
        (groups.map (fun g => (g.map (fun x => (x - mean g) ^ 2)).sum)).sum
      (if 0 < df then ssW / (df : ℚ) else 0, df)

/-- The square of the pooled standard error for the pair with group sizes
ni and nj: se = sqrt(ms_within * (1/ni + 1/nj)), so the source guard
se > 0 holds exactly when this radicand is positive (a negative radicand
gives se = nan, and nan > 0 is false). -/
def scheffeSeSq (msW : ℚ) (ni nj : ℕ) : ℚ :=
  msW * (1 / (ni : ℚ) + 1 / (nj : ℚ))

/-- The body of the scheffe loop for one pair (post_hoc.py lines
122-135).  fsf stands for stats.f.sf on a finite F value. -/
def scheffeRow (fsf : ℚ → ℤ → ℤ → ℚ) (groups : List (List ℚ))
    (groupNames : List String) (msW : ℚ) (dfW : ℤ) (k : ℕ)
    (p : ℕ × ℕ) : ScheffeRow :=
  let gi := groups.getD p.1 []
  let gj := groups.getD p.2 []
  let ni := gi.length
  let nj := gj.length
  let diff := mean gi - mean gj
  let fVal : ℚ :=
    if 0 < scheffeSeSq msW ni nj then
      diff ^ 2 / (((k : ℚ) - 1) * msW * (1 / (ni : ℚ) + 1 / (nj : ℚ)))
    else 0
  let pVal := fsf fVal ((k : ℤ) - 1) dfW
  { group1 := groupNames.getD p.1 ""
    group2 := groupNames.getD p.2 ""
    meanDiff := diff
    fScheffe := fVal
    pValue := pVal
    significant := pVal < (5 / 100 : ℚ) }

/-- scheffe (post_hoc.py lines 95-138), returning the structured table. -/
def scheffe (fsf : ℚ → ℤ → ℤ → ℚ) (groups : List (List ℚ))
    (groupNames : List String) (msWithin : Option ℚ) (dfWithin : Option ℤ) :
    List ScheffeRow :=
  let k := groups.length
  let pooled := scheffePooled groups msWithin dfWithin
  (pairs k).map (scheffeRow fsf groups groupNames pooled.1 pooled.2 k)

/-
  Helper lemmas.
-/

/-- Expanding a shifted sum of squares over a list. -/
lemma sum_sq_shift (g : List ℚ) (c : ℚ) :
    (g.map (fun x => (x - c) ^ 2)).sum
      = (g.map (fun x => x ^ 2)).sum - 2 * c * g.sum + (g.length : ℚ) * c ^ 2 := by
  induction g with
  | nil => simp
  | cons y ys ih =>
      simp only [List.map_cons, List.sum_cons, List.length_cons, ih]
      push_cast
      ring

/-- Sum of deviations from a constant. -/
lemma sum_sub_const (g : List ℚ) (c : ℚ) :
    (g.map (fun x => x - c)).sum = g.sum - (g.length : ℚ) * c := by
  induction g with
  | nil => simp
  | cons y ys ih =>
      simp only [List.map_cons, List.sum_cons, List.length_cons, ih]
      push_cast
      ring

/-- A nonempty list has nonzero rational length. -/
lemma length_ne_zero_q (g : List ℚ) (hg : g ≠ []) : (g.length : ℚ) ≠ 0 := by
  have : g.length ≠ 0 := fun h => hg (List.length_eq_zero.mp h)
  exact_mod_cast this

/-- The one-group sum-of-squares decomposition about an arbitrary centre:
total squared deviation from G splits into the squared deviation of the
group mean plus the within-group squared deviation. -/
lemma group_decomp (g : List ℚ) (G : ℚ) (hg : g ≠ []) :
    (g.map (fun x => (x - G) ^ 2)).sum
      = (g.length : ℚ) * (mean g - G) ^ 2
        + (g.map (fun x => (x - mean g) ^ 2)).sum := by
  have hn := length_ne_zero_q g hg
  rw [sum_sq_shift, sum_sq_shift, mean]
  field_simp
  ring

/-- Deviations from the group mean sum to zero for a nonempty group. -/
lemma sum_dev_mean (g : List ℚ) (hg : g ≠ []) :
    (g.map (fun x => x - mean g)).sum = 0 := by
  have hn := length_ne_zero_q g hg
  rw [sum_sub_const, mean]
  field_simp

/-- Summing the one-group decomposition over a list of nonempty groups. -/
lemma groups_decomp (gs : List (List ℚ)) (G : ℚ) (h : ∀ g ∈ gs, g ≠ []) :
    (gs.map (fun g => (g.map (fun x => (x - G) ^ 2)).sum)).sum
      = (gs.map (fun g => (g.length : ℚ) * (mean g - G) ^ 2)).sum
        + (gs.map (fun g => (g.map (fun x => (x - mean g) ^ 2)).sum)).sum := by
  induction gs with
  | nil => simp
  | cons g gs ih =>
      simp only [List.map_cons, List.sum_cons]
      rw [group_decomp g G (h g (by simp)),
        ih (fun g' hg' => h g' (List.mem_cons_of_mem _ hg'))]
      ring

/-- Inversion of the tail of the one-way constructor: a successful
construction pins every field and yields the validity facts. -/
lemma OneWayANOVA.checkGroups_ok {data : List (List ℚ)} {names : List String}
    {st : OneWayANOVA} (h : OneWayANOVA.checkGroups data names = .ok st) :
    st.groups = data ∧ st.groupNames = names ∧ st.k = data.length ∧
      st.nTotal = (data.map List.length).sum ∧ 2 ≤ data.length ∧
      ∀ g ∈ data, g ≠ [] := by
  unfold OneWayANOVA.checkGroups at h
  split at h
  · cases h
  · split at h
    · cases h
    · next hfind =>
        cases h
        refine ⟨rfl, rfl, rfl, rfl, by omega, ?_⟩
        intro g hg hnil
        have := List.findIdx?_eq_none_iff.mp hfind g hg
        simp [hnil] at this

/-- Inversion of the one-way constructor. -/
lemma OneWayANOVA.init_ok_inv {data : List (List ℚ)} {names : Option (List String)}
    {st : OneWayANOVA} (h : OneWayANOVA.init data names = .ok st) :
    st.groups = data ∧ st.k = data.length ∧
      st.nTotal = (data.map List.length).sum ∧ 2 ≤ data.length ∧
      (∀ g ∈ data, g ≠ []) ∧
      ∀ ns, names = some ns → ns.length = data.length := by
  unfold OneWayANOVA.init at h
  split at h
  · split at h
    · cases h
    · next hlen =>
        obtain ⟨h1, _, h3, h4, h5, h6⟩ := OneWayANOVA.checkGroups_ok h
        refine ⟨h1, h3, h4, h5, h6, fun ns' hns' => ?_⟩
        cases hns'
        omega
  · obtain ⟨h1, _, h3, h4, h5, h6⟩ := OneWayANOVA.checkGroups_ok h
    refine ⟨h1, h3, h4, h5, h6, fun ns hns => ?_⟩
    cases hns

/-- C1: for every valid one-way group set (at least 2 groups, every group
non-empty, as established by the constructor), the sums of squares
computed by OneWayANOVA.calculate satisfy SS_total = SS_between +
SS_within — exactly over ℚ, hence within every relative tolerance, in
particular 1e-6. -/
theorem oneWay_ss_partition (data : List (List ℚ)) (names : Option (List String))
    (st : OneWayANOVA) (fsf : FStat → ℤ → ℤ → ℚ)
    (h : OneWayANOVA.init data names = .ok st) :
    (st.calculate fsf).ssTotal
      = (st.calculate fsf).ssBetween + (st.calculate fsf).ssWithin := by
  obtain ⟨hg, -, -, -, hne, -⟩ := OneWayANOVA.init_ok_inv h
  simp only [OneWayANOVA.calculate]
  exact groups_decomp st.groups _ (fun g hgm => hne g (hg ▸ hgm))

/-- C9: for every valid one-way group set, the residuals vector returned
by OneWayANOVA.calculate is the concatenation, in original group order,
of the deviations from the group mean, has length N (the total
observation count), and sums to zero — exactly over ℚ, hence within the
stated absolute tolerance 1e-9. -/
theorem oneWay_residuals (data : List (List ℚ)) (names : Option (List String))
    (st : OneWayANOVA) (fsf : FStat → ℤ → ℤ → ℚ)
    (h : OneWayANOVA.init data names = .ok st) :
    (st.calculate fsf).residuals
        = (st.groups.map (fun g => g.map (fun x => x - mean g))).flatten
      ∧ (st.calculate fsf).residuals.length = st.nTotal
      ∧ (st.calculate fsf).residuals.sum = 0 := by
  obtain ⟨hg, -, htot, -, hne, -⟩ := OneWayANOVA.init_ok_inv h
  refine ⟨rfl, ?_, ?_⟩
  · simp only [OneWayANOVA.calculate]
    rw [List.length_flatten, List.map_map]
    have : (List.length ∘ fun g : List ℚ => g.map (fun x => x - mean g))
        = List.length := by
      funext g
      simp
    rw [this, hg, ← htot]
  · simp only [OneWayANOVA.calculate]
    rw [List.sum_flatten, List.map_map]
    apply List.sum_eq_zero
    intro x hx
    obtain ⟨g, hgm, rfl⟩ := List.mem_map.mp hx
    exact sum_dev_mean g (hne g (hg ▸ hgm))

/-- Under the negation of every failure condition the one-way constructor
succeeds. -/
lemma OneWayANOVA.init_valid_ok {data : List (List ℚ)}
    {names : Option (List String)} (hlen : 2 ≤ data.length)
    (hemp : ∀ g ∈ data, g ≠ [])
    (hns : ∀ ns, names = some ns → ns.length = data.length) :
    ∃ st, OneWayANOVA.init data names = .ok st := by
  have hfind : data.findIdx? List.isEmpty = none :=
    List.findIdx?_eq_none_iff.mpr (fun g hgm => by simp [hemp g hgm])
  have hcheck : ∀ ns0, ∃ st, OneWayANOVA.checkGroups data ns0 = .ok st := by
    intro ns0
    unfold OneWayANOVA.checkGroups
    rw [if_neg (by omega), hfind]
    exact ⟨_, rfl⟩
  cases names with
  | none =>
      have h0 : OneWayANOVA.init data none
          = OneWayANOVA.checkGroups data (defaultNames data.length) := rfl
      rw [h0]
      exact hcheck _
  | some ns =>
      have h0 : OneWayANOVA.init data (some ns)
          = if ns.length ≠ data.length then .error .nameMismatch
            else OneWayANOVA.checkGroups data ns := rfl
      rw [h0, if_neg (by simp [hns ns rfl])]
      exact hcheck _

/-- C4: the one-way constructor fails with a validation error exactly
when there are fewer than 2 groups, some group is empty, or a supplied
group_names list has the wrong length; and once construction succeeds,
calculation is total (every division and mean it takes is defined), so it
never fails afterwards. -/
theorem oneWay_validation (data : List (List ℚ)) (names : Option (List String))
    (fsf : FStat → ℤ → ℤ → ℚ) :
    ((∃ e, OneWayANOVA.init data names = .error e) ↔
      (data.length < 2 ∨ (∃ g ∈ data, g = []) ∨
        (∃ ns, names = some ns ∧ ns.length ≠ data.length)))
    ∧ (∀ st, OneWayANOVA.init data names = .ok st →
        (st.calculateQ fsf).isSome = true) := by
  constructor
  · constructor
    · rintro ⟨e, he⟩
      by_contra hcond
      push_neg at hcond
      obtain ⟨h1, h2, h3⟩ := hcond
      obtain ⟨st, hok⟩ := OneWayANOVA.init_valid_ok h1
        (fun g hgm => h2 g hgm) (fun ns hns => h3 ns hns)
      rw [hok] at he
      cases he
    · intro hcond
      cases hinit : OneWayANOVA.init data names with
      | error e => exact ⟨e, rfl⟩
      | ok st =>
          exfalso
          obtain ⟨-, -, -, hlen, hne, hns⟩ := OneWayANOVA.init_ok_inv hinit
          rcases hcond with hc | ⟨g, hgm, hgnil⟩ | ⟨ns, hns', hnsne⟩
          · omega
          · exact hne g hgm hgnil
          · exact hnsne (hns ns hns')
  · intro st h
    obtain ⟨hg, hk, -, hlen, hne, -⟩ := OneWayANOVA.init_ok_inv h
    unfold OneWayANOVA.calculateQ
    have h1 : st.groups.any List.isEmpty = false := by
      rw [List.any_eq_false]
      intro g hgm
      simp [hne g (hg ▸ hgm)]
    rw [if_neg (by simp [h1]), if_neg (by omega)]
    rfl

/-- A passing inner validation scan means every cell has exactly r
replicates. -/
lemma TwoWayANOVA.checkCells_none {i r : ℕ} :
    ∀ {j : ℕ} {cells : List (List ℚ)},
      TwoWayANOVA.checkCells i r j cells = none → ∀ c ∈ cells, c.length = r := by
  intro j cells
  induction cells generalizing j with
  | nil => intro _ c hc; cases hc
  | cons c cs ih =>
      intro h c2 hc2
      unfold TwoWayANOVA.checkCells at h
      split at h
      · cases h
      · next hlen =>
          rcases List.mem_cons.mp hc2 with rfl | hmem
          · omega
          · exact ih h c2 hmem

/-- A passing outer validation scan means the grid is rectangular. -/
lemma TwoWayANOVA.checkRows_none {b r : ℕ} :
    ∀ {i : ℕ} {rows : List (List (List ℚ))},
      TwoWayANOVA.checkRows b r i rows = none →
        ∀ row ∈ rows, row.length = b ∧ ∀ c ∈ row, c.length = r := by
  intro i rows
  induction rows generalizing i with
  | nil => intro _ row hrow; cases hrow
  | cons row rest ih =>
      intro h row2 hrow2
      unfold TwoWayANOVA.checkRows at h
      split at h
      · cases h
      · next hlen =>
          split at h
          · cases h
          · next hcells =>
              rcases List.mem_cons.mp hrow2 with rfl | hmem
              · exact ⟨by omega, TwoWayANOVA.checkCells_none hcells⟩
              · exact ih h row2 hmem

/-- Every error the validation scans can produce is a validation error. -/
lemma TwoWayANOVA.checkCells_validation {i r : ℕ} :
    ∀ {j : ℕ} {cells : List (List ℚ)} {e : TwoWayError},
      TwoWayANOVA.checkCells i r j cells = some e → e.isValidation = true := by
  intro j cells
  induction cells generalizing j with
  | nil => intro e h; cases h
  | cons c cs ih =>
      intro e h
      unfold TwoWayANOVA.checkCells at h
      split at h
      · cases h
        rfl
      · exact ih h

/-- Every error the row scan can produce is a validation error. -/
lemma TwoWayANOVA.checkRows_validation {b r : ℕ} :
    ∀ {i : ℕ} {rows : List (List (List ℚ))} {e : TwoWayError},
      TwoWayANOVA.checkRows b r i rows = some e → e.isValidation = true := by
  intro i rows
  induction rows generalizing i with
  | nil => intro e h; cases h
  | cons row rest ih =>
      intro e h
      unfold TwoWayANOVA.checkRows at h
      split at h
      · cases h
        rfl
      · split at h
        · next hcells =>
            cases h
            exact TwoWayANOVA.checkCells_validation hcells
        · exact ih h

/-- Inversion of the validation tail: success returns the state
unchanged, with _validate passing. -/
lemma TwoWayANOVA.finishInit_ok {st0 st : TwoWayANOVA}
    (h : TwoWayANOVA.finishInit st0 = .ok st) :
    st = st0 ∧ st0.validate = none := by
  unfold TwoWayANOVA.finishInit at h
  split at h
  · cases h
  · next hnone =>
      cases h
      exact ⟨rfl, hnone⟩

/-- Inversion of a passing _validate: the level and replicate bounds hold
and the grid is rectangular. -/
lemma TwoWayANOVA.validate_none {st : TwoWayANOVA} (h : st.validate = none) :
    2 ≤ st.a ∧ 2 ≤ st.b ∧ 2 ≤ st.r ∧
      (∀ row ∈ st.data, row.length = st.b) ∧
      (∀ row ∈ st.data, ∀ c ∈ row, c.length = st.r) := by
  unfold TwoWayANOVA.validate at h
  split at h
  · cases h
  · next ha =>
      split at h
      · cases h
      · next hb =>
          split at h
          · cases h
          · next hr =>
              have hrect := TwoWayANOVA.checkRows_none h
              exact ⟨by omega, by omega, by omega,
                fun row hrow => (hrect row hrow).1,
                fun row hrow => (hrect row hrow).2⟩

/-- Inversion of the two-way constructor: a successful construction pins
every field and yields the balanced-design facts. -/
lemma TwoWayANOVA.init_grid_ok {data : List (List (List ℚ))} {fa fb : String}
    {st : TwoWayANOVA} (h : TwoWayANOVA.init data fa fb = .ok st) :
    st.data = data ∧ st.data.length = st.a ∧ st.N = st.a * st.b * st.r ∧
      2 ≤ st.a ∧ 2 ≤ st.b ∧ 2 ≤ st.r ∧
      (∀ row ∈ st.data, row.length = st.b) ∧
      (∀ row ∈ st.data, ∀ c ∈ row, c.length = st.r) := by
  unfold TwoWayANOVA.init at h
  split at h
  · cases h
  · split at h
    · cases h
    · obtain ⟨rfl, hval⟩ := TwoWayANOVA.finishInit_ok h
      obtain ⟨ha, hb, hr, hrows, hcells⟩ := TwoWayANOVA.validate_none hval
      exact ⟨rfl, rfl, rfl, ha, hb, hr, hrows, hcells⟩

/-- Under the balanced-grid facts the cell accessor returns a cell of
exactly r replicates. -/
lemma TwoWayANOVA.cell_length {st : TwoWayANOVA}
    (hlen : st.data.length = st.a)
    (hrows : ∀ row ∈ st.data, row.length = st.b)
    (hcells : ∀ row ∈ st.data, ∀ c ∈ row, c.length = st.r)
    {i j : ℕ} (hi : i < st.a) (hj : j < st.b) :
    (st.cell i j).length = st.r := by
  unfold TwoWayANOVA.cell
  have hi2 : i < st.data.length := by omega
  rw [List.getD_eq_getElem _ _ hi2]
  have hrowmem : st.data[i] ∈ st.data := List.getElem_mem hi2
  have hj2 : j < (st.data[i]).length := by rw [hrows _ hrowmem]; exact hj
  rw [List.getD_eq_getElem _ _ hj2]
  exact hcells _ hrowmem _ (List.getElem_mem hj2)

/-- The row means sum to the grand total scaled by the row size. -/
lemma TwoWayANOVA.sum_rowMean (st : TwoWayANOVA) :
    ∑ i ∈ Finset.range st.a, st.rowMean i
      = st.grandTotal / ((st.b * st.r : ℕ) : ℚ) := by
  unfold TwoWayANOVA.rowMean TwoWayANOVA.grandTotal
  rw [← Finset.sum_div]

/-- The column means sum to the grand total scaled by the column size. -/
lemma TwoWayANOVA.sum_colMean (st : TwoWayANOVA) :
    ∑ j ∈ Finset.range st.b, st.colMean j
      = st.grandTotal / ((st.a * st.r : ℕ) : ℚ) := by
  unfold TwoWayANOVA.colMean TwoWayANOVA.grandTotal
  rw [← Finset.sum_div, Finset.sum_comm]

/-- Cell means of a row sum to the row total over r. -/
lemma TwoWayANOVA.sum_cellMean_row (st : TwoWayANOVA) (i : ℕ) :
    ∑ j ∈ Finset.range st.b, st.cellMean i j
      = (∑ j ∈ Finset.range st.b, st.cellSum i j) / (st.r : ℚ) := by
  unfold TwoWayANOVA.cellMean
  rw [← Finset.sum_div]

/-- Cell means of a column sum to the column total over r. -/
lemma TwoWayANOVA.sum_cellMean_col (st : TwoWayANOVA) (j : ℕ) :
    ∑ i ∈ Finset.range st.a, st.cellMean i j
      = (∑ i ∈ Finset.range st.a, st.cellSum i j) / (st.r : ℚ) := by
  unfold TwoWayANOVA.cellMean
  rw [← Finset.sum_div]

/-- Column-mean deviations from the grand mean sum to zero. -/
lemma TwoWayANOVA.sum_beta (st : TwoWayANOVA) (hN : st.N = st.a * st.b * st.r)
    (ha : 1 ≤ st.a) (hb : 1 ≤ st.b) (hr : 1 ≤ st.r) :
    ∑ j ∈ Finset.range st.b, (st.colMean j - st.grandMean) = 0 := by
  have qa : (st.a : ℚ) ≠ 0 := Nat.cast_ne_zero.mpr (by omega)
  have qb : (st.b : ℚ) ≠ 0 := Nat.cast_ne_zero.mpr (by omega)
  have qr : (st.r : ℚ) ≠ 0 := Nat.cast_ne_zero.mpr (by omega)
  rw [Finset.sum_sub_distrib, TwoWayANOVA.sum_colMean, Finset.sum_const,
    Finset.card_range, nsmul_eq_mul]
  unfold TwoWayANOVA.grandMean
  rw [hN]
  push_cast
  field_simp
  ring

/-- The interaction deviations of one row sum to zero. -/
lemma TwoWayANOVA.sum_gamma_row (st : TwoWayANOVA)
    (hN : st.N = st.a * st.b * st.r)
    (ha : 1 ≤ st.a) (hb : 1 ≤ st.b) (hr : 1 ≤ st.r) (i : ℕ) :
    ∑ j ∈ Finset.range st.b,
        (st.cellMean i j - st.rowMean i - st.colMean j + st.grandMean) = 0 := by
  have qa : (st.a : ℚ) ≠ 0 := Nat.cast_ne_zero.mpr (by omega)
  have qb : (st.b : ℚ) ≠ 0 := Nat.cast_ne_zero.mpr (by omega)
  have qr : (st.r : ℚ) ≠ 0 := Nat.cast_ne_zero.mpr (by omega)
  rw [Finset.sum_add_distrib, Finset.sum_sub_distrib, Finset.sum_sub_distrib,
    TwoWayANOVA.sum_cellMean_row, TwoWayANOVA.sum_colMean, Finset.sum_const,
    Finset.card_range, nsmul_eq_mul, Finset.sum_const, Finset.card_range,
    nsmul_eq_mul]
  unfold TwoWayANOVA.rowMean TwoWayANOVA.grandMean
  rw [hN]
  push_cast
  field_simp
  ring

/-- The interaction deviations of one column sum to zero. -/
lemma TwoWayANOVA.sum_gamma_col (st : TwoWayANOVA)
    (hN : st.N = st.a * st.b * st.r)
    (ha : 1 ≤ st.a) (hb : 1 ≤ st.b) (hr : 1 ≤ st.r) (j : ℕ) :
    ∑ i ∈ Finset.range st.a,
        (st.cellMean i j - st.rowMean i - st.colMean j + st.grandMean) = 0 := by
  have qa : (st.a : ℚ) ≠ 0 := Nat.cast_ne_zero.mpr (by omega)
  have qb : (st.b : ℚ) ≠ 0 := Nat.cast_ne_zero.mpr (by omega)
  have qr : (st.r : ℚ) ≠ 0 := Nat.cast_ne_zero.mpr (by omega)
  rw [Finset.sum_add_distrib, Finset.sum_sub_distrib, Finset.sum_sub_distrib,
    TwoWayANOVA.sum_cellMean_col, TwoWayANOVA.sum_rowMean, Finset.sum_const,
    Finset.card_range, nsmul_eq_mul, Finset.sum_const, Finset.card_range,
    nsmul_eq_mul]
  unfold TwoWayANOVA.colMean TwoWayANOVA.grandMean
  rw [hN]
  push_cast
  field_simp
  ring

/-- Quadratic expansion of a double sum of a three-part decomposition
whose cross terms vanish: the row effect, the column effect, and an
interaction term summing to zero along every row and every column. -/
lemma double_sum_cross_decomp (a b : ℕ) (al : ℕ → ℚ) (be : ℕ → ℚ)
    (ga : ℕ → ℕ → ℚ)
    (hbe : ∑ j ∈ Finset.range b, be j = 0)
    (hgr : ∀ i, ∑ j ∈ Finset.range b, ga i j = 0)
    (hgc : ∀ j, ∑ i ∈ Finset.range a, ga i j = 0) :
    ∑ i ∈ Finset.range a, ∑ j ∈ Finset.range b, (al i + be j + ga i j) ^ 2
      = (b : ℚ) * ∑ i ∈ Finset.range a, al i ^ 2
        + (a : ℚ) * ∑ j ∈ Finset.range b, be j ^ 2
        + ∑ i ∈ Finset.range a, ∑ j ∈ Finset.range b, ga i j ^ 2 := by
  have hrow : ∀ i, ∑ j ∈ Finset.range b, (al i + be j + ga i j) ^ 2
      = (b : ℚ) * al i ^ 2 + ∑ j ∈ Finset.range b, be j ^ 2
        + ∑ j ∈ Finset.range b, ga i j ^ 2
        + ∑ j ∈ Finset.range b, 2 * be j * ga i j := by
    intro i
    have e1 : ∀ j, (al i + be j + ga i j) ^ 2
        = al i ^ 2 + be j ^ 2 + ga i j ^ 2 + 2 * al i * be j
          + 2 * al i * ga i j + 2 * be j * ga i j := fun j => by ring
    rw [Finset.sum_congr rfl fun j _ => e1 j]
    rw [Finset.sum_add_distrib, Finset.sum_add_distrib, Finset.sum_add_distrib,
      Finset.sum_add_distrib, Finset.sum_add_distrib]
    rw [Finset.sum_const, Finset.card_range, nsmul_eq_mul]
    have t4 : ∑ j ∈ Finset.range b, 2 * al i * be j = 0 := by
      rw [← Finset.mul_sum, hbe, mul_zero]
    have t5 : ∑ j ∈ Finset.range b, 2 * al i * ga i j = 0 := by
      rw [← Finset.mul_sum, hgr i, mul_zero]
    rw [t4, t5]
    ring
  rw [Finset.sum_congr rfl fun i _ => hrow i]
  rw [Finset.sum_add_distrib, Finset.sum_add_distrib, Finset.sum_add_distrib]
  rw [← Finset.mul_sum]
  rw [Finset.sum_const, Finset.card_range, nsmul_eq_mul]
  have t6 : ∑ i ∈ Finset.range a, ∑ j ∈ Finset.range b, 2 * be j * ga i j
      = 0 := by
    rw [Finset.sum_comm]
    apply Finset.sum_eq_zero
    intro j _
    rw [← Finset.mul_sum, hgc j, mul_zero]
  rw [t6]
  ring

/-- The between-cell sum of squares splits into main effects plus
interaction for a balanced grid. -/
lemma TwoWayANOVA.cells_partition (st : TwoWayANOVA)
    (hN : st.N = st.a * st.b * st.r)
    (ha : 1 ≤ st.a) (hb : 1 ≤ st.b) (hr : 1 ≤ st.r) :
    (st.r : ℚ) * ∑ i ∈ Finset.range st.a, ∑ j ∈ Finset.range st.b,
        (st.cellMean i j - st.grandMean) ^ 2
      = ((st.b * st.r : ℕ) : ℚ)
            * ∑ i ∈ Finset.range st.a, (st.rowMean i - st.grandMean) ^ 2
        + ((st.a * st.r : ℕ) : ℚ)
            * ∑ j ∈ Finset.range st.b, (st.colMean j - st.grandMean) ^ 2
        + (st.r : ℚ) * ∑ i ∈ Finset.range st.a, ∑ j ∈ Finset.range st.b,
            (st.cellMean i j - st.rowMean i - st.colMean j + st.grandMean) ^ 2 := by
  have e0 : ∀ i j, (st.cellMean i j - st.grandMean) ^ 2
      = ((st.rowMean i - st.grandMean) + (st.colMean j - st.grandMean)
          + (st.cellMean i j - st.rowMean i - st.colMean j + st.grandMean)) ^ 2 :=
    fun i j => by ring
  rw [Finset.sum_congr rfl fun i _ => Finset.sum_congr rfl fun j _ => e0 i j]
  rw [double_sum_cross_decomp st.a st.b _ _ _
    (TwoWayANOVA.sum_beta st hN ha hb hr)
    (TwoWayANOVA.sum_gamma_row st hN ha hb hr)
    (TwoWayANOVA.sum_gamma_col st hN ha hb hr)]
  push_cast
  ring

/-- The total sum of squares splits into the between-cell part and the
within-cell (error) part for a balanced grid. -/
lemma TwoWayANOVA.sstotal_split (st : TwoWayANOVA)
    (hlen : st.data.length = st.a)
    (hrows : ∀ row ∈ st.data, row.length = st.b)
    (hcells : ∀ row ∈ st.data, ∀ c ∈ row, c.length = st.r)
    (hr : 1 ≤ st.r) :
    ∑ i ∈ Finset.range st.a, ∑ j ∈ Finset.range st.b,
        ((st.cell i j).map (fun x => (x - st.grandMean) ^ 2)).sum
      = (st.r : ℚ) * ∑ i ∈ Finset.range st.a, ∑ j ∈ Finset.range st.b,
          (st.cellMean i j - st.grandMean) ^ 2
        + ∑ i ∈ Finset.range st.a, ∑ j ∈ Finset.range st.b,
            ((st.cell i j).map (fun x => (x - st.cellMean i j) ^ 2)).sum := by
  have percell : ∀ i ∈ Finset.range st.a, ∀ j ∈ Finset.range st.b,
      ((st.cell i j).map (fun x => (x - st.grandMean) ^ 2)).sum
        = (st.r : ℚ) * (st.cellMean i j - st.grandMean) ^ 2
          + ((st.cell i j).map (fun x => (x - st.cellMean i j) ^ 2)).sum := by
    intro i hi j hj
    have hi2 : i < st.a := Finset.mem_range.mp hi
    have hj2 : j < st.b := Finset.mem_range.mp hj
    have hclen : (st.cell i j).length = st.r :=
      TwoWayANOVA.cell_length hlen hrows hcells hi2 hj2
    have hne : st.cell i j ≠ [] := by
      intro hnil
      rw [hnil] at hclen
      simp at hclen
      omega
    have hmean : mean (st.cell i j) = st.cellMean i j := by
      unfold mean TwoWayANOVA.cellMean TwoWayANOVA.cellSum
      rw [hclen]
    have hd := group_decomp (st.cell i j) st.grandMean hne
    rw [hmean, hclen] at hd
    exact hd
  rw [Finset.sum_congr rfl fun i hi =>
    Finset.sum_congr rfl fun j hj => percell i hi j hj]
  simp only [Finset.sum_add_distrib]
  simp only [← Finset.mul_sum]

/-- C2: for every valid balanced two-way grid (as established by the
constructor: a, b, r at least 2, rectangular), the sums of squares
computed by TwoWayANOVA.calculate satisfy SS_A + SS_B + SS_AB + SS_error
= SS_total — exactly over ℚ, hence within every relative tolerance, in
particular 1e-6. -/
theorem twoWay_ss_partition (data : List (List (List ℚ))) (fa fb : String)
    (st : TwoWayANOVA) (fsf : FStat → ℤ → ℤ → ℚ)
    (h : TwoWayANOVA.init data fa fb = .ok st) :
    (st.calculate fsf).ssA + (st.calculate fsf).ssB + (st.calculate fsf).ssAB
        + (st.calculate fsf).ssError = (st.calculate fsf).ssTotal := by
  obtain ⟨-, hlen, hN, ha, hb, hr, hrows, hcells⟩ := TwoWayANOVA.init_grid_ok h
  simp only [TwoWayANOVA.calculate]
  rw [TwoWayANOVA.sstotal_split st hlen hrows hcells (by omega)]
  rw [TwoWayANOVA.cells_partition st hN (by omega) (by omega) (by omega)]

/-- C3: for every valid balanced two-way grid the degrees of freedom
computed by TwoWayANOVA.calculate are df_A = a-1, df_B = b-1,
df_AB = (a-1)(b-1), df_error = ab(r-1), df_total = N-1 with N = abr, and
their sum equals df_total exactly, as integers. -/
theorem twoWay_df_identity (data : List (List (List ℚ))) (fa fb : String)
    (st : TwoWayANOVA) (fsf : FStat → ℤ → ℤ → ℚ)
    (h : TwoWayANOVA.init data fa fb = .ok st) :
    (st.calculate fsf).dfA = (st.a : ℤ) - 1
      ∧ (st.calculate fsf).dfB = (st.b : ℤ) - 1
      ∧ (st.calculate fsf).dfAB = ((st.a : ℤ) - 1) * ((st.b : ℤ) - 1)
      ∧ (st.calculate fsf).dfError = (st.a : ℤ) * (st.b : ℤ) * ((st.r : ℤ) - 1)
      ∧ (st.calculate fsf).dfTotal = (st.N : ℤ) - 1
      ∧ st.N = st.a * st.b * st.r
      ∧ (st.calculate fsf).dfA + (st.calculate fsf).dfB
          + (st.calculate fsf).dfAB + (st.calculate fsf).dfError
        = (st.calculate fsf).dfTotal := by
  obtain ⟨-, -, hN, -, -, -, -, -⟩ := TwoWayANOVA.init_grid_ok h
  refine ⟨rfl, rfl, rfl, rfl, rfl, hN, ?_⟩
  simp only [TwoWayANOVA.calculate]
  rw [hN]
  push_cast
  ring

/-- Every error produced by _validate is a validation error (only the
shape reads in __init__ itself can produce the IndexError). -/
lemma TwoWayANOVA.validate_some_validation {st : TwoWayANOVA} {e : TwoWayError}
    (h : st.validate = some e) : e.isValidation = true := by
  unfold TwoWayANOVA.validate at h
  split at h
  · cases h
    rfl
  · split at h
    · cases h
      rfl
    · split at h
      · cases h
        rfl
      · exact TwoWayANOVA.checkRows_validation h

/-- C5: a two-way input whose replicate count (the length of the first
cell) is below 2, or whose grid is non-rectangular relative to the shape
read off the first row and first cell, is rejected at construction with a
validation error; in particular a grid with at least 2 levels per factor
and r = 1 is rejected with the error naming the minimum replicate
requirement. -/
theorem twoWay_replicate_validation (data : List (List (List ℚ)))
    (fa fb : String) (hne : data ≠ []) (hrow : data.headI ≠ []) :
    ((data.headI.headI.length < 2 ∨
        ¬(∀ row ∈ data, row.length = data.headI.length ∧
            ∀ c ∈ row, c.length = data.headI.headI.length)) →
      ∃ e, TwoWayANOVA.init data fa fb = .error e ∧ e.isValidation = true)
    ∧ (2 ≤ data.length → 2 ≤ data.headI.length → data.headI.headI.length = 1 →
        TwoWayANOVA.init data fa fb = .error .replicates) := by
  cases data with
  | nil => exact absurd rfl hne
  | cons row0 rest =>
      cases row0 with
      | nil => exact absurd rfl hrow
      | cons c0 cs =>
          simp only [List.headI_cons]
          set st0 : TwoWayANOVA :=
            ⟨(c0 :: cs) :: rest, fa, fb, ((c0 :: cs) :: rest).length,
              (c0 :: cs).length, c0.length,
              ((c0 :: cs) :: rest).length * (c0 :: cs).length * c0.length⟩
            with hst0
          have hinit : TwoWayANOVA.init ((c0 :: cs) :: rest) fa fb
              = TwoWayANOVA.finishInit st0 := rfl
          constructor
          · intro hbad
            rw [hinit]
            unfold TwoWayANOVA.finishInit
            cases hval : st0.validate with
            | some e =>
                exact ⟨e, rfl, TwoWayANOVA.validate_some_validation hval⟩
            | none =>
                exfalso
                obtain ⟨-, -, hr2, hrows, hcells⟩ :=
                  TwoWayANOVA.validate_none hval
                rcases hbad with hrlt | hrect
                · have : st0.r = c0.length := rfl
                  omega
                · exact hrect fun row hrowm =>
                    ⟨hrows row hrowm, hcells row hrowm⟩
          · intro ha2 hb2 hr1
            have hval : st0.validate = some .replicates := by
              unfold TwoWayANOVA.validate
              rw [if_neg (by simp only [hst0]; omega),
                if_neg (by simp only [hst0]; omega),
                if_pos (by simp only [hst0]; omega)]
            rw [hinit]
            unfold TwoWayANOVA.finishInit
            rw [hval]

/-- C7: degenerate numeric situations are handled without a division
fault: a zero within mean square makes the one-way F statistic infinite,
a zero error mean square makes all three two-way F statistics infinite,
and a zero pooled standard error term in the Scheffe test makes the pair
F value 0. -/
theorem degenerate_cases_no_fault :
    (∀ (st : OneWayANOVA) (fsf : FStat → ℤ → ℤ → ℚ),
        (st.calculate fsf).msWithin = 0 → (st.calculate fsf).F = FStat.inf)
    ∧ (∀ (st : TwoWayANOVA) (fsf : FStat → ℤ → ℤ → ℚ),
        (st.calculate fsf).msError = 0 →
          (st.calculate fsf).fA = FStat.inf ∧ (st.calculate fsf).fB = FStat.inf
            ∧ (st.calculate fsf).fAB = FStat.inf)
    ∧ (∀ (fsf : ℚ → ℤ → ℤ → ℚ) (groups : List (List ℚ))
        (names : List String) (msW : ℚ) (dfW : ℤ) (k : ℕ) (p : ℕ × ℕ),
        scheffeSeSq msW (groups.getD p.1 []).length
            (groups.getD p.2 []).length = 0 →
          (scheffeRow fsf groups names msW dfW k p).fScheffe = 0) := by
  refine ⟨?_, ?_, ?_⟩
  · intro st fsf h
    simp only [OneWayANOVA.calculate] at h ⊢
    rw [h, if_neg (lt_irrefl 0)]
  · intro st fsf h
    simp only [TwoWayANOVA.calculate] at h ⊢
    rw [h]
    exact ⟨if_neg (lt_irrefl 0), if_neg (lt_irrefl 0), if_neg (lt_irrefl 0)⟩
  · intro fsf groups names msW dfW k p h
    simp only [scheffeRow] at h ⊢
    rw [h, if_neg (lt_irrefl 0)]

/-- C10: scheffe uses the caller-supplied pooled error term only when
both ms_within and df_within are given; with exactly one of them supplied
the call behaves as if neither were, recomputing df = N - k and
MS = pooled within-group sum of squares over df. -/
theorem scheffe_pooled_both_required (fsf : ℚ → ℤ → ℤ → ℚ)
    (groups : List (List ℚ)) (names : List String) (v : ℚ) (w : ℤ) :
    scheffe fsf groups names (some v) none = scheffe fsf groups names none none
    ∧ scheffe fsf groups names none (some w)
        = scheffe fsf groups names none none
    ∧ scheffePooled groups (some v) none
        = (if 0 < ((groups.map List.length).sum : ℤ) - (groups.length : ℤ) then
            (groups.map (fun g => (g.map (fun x => (x - mean g) ^ 2)).sum)).sum
              / ((((groups.map List.length).sum : ℤ)
                    - (groups.length : ℤ) : ℤ) : ℚ)
          else 0,
          ((groups.map List.length).sum : ℤ) - (groups.length : ℤ))
    ∧ scheffePooled groups none (some w)
        = scheffePooled groups (some v) none := by
  exact ⟨rfl, rfl, rfl, rfl⟩

/-- A list sum over an initial segment equals the matching finite sum. -/
lemma list_map_range_sum (f : ℕ → ℕ) (n : ℕ) :
    ((List.range n).map f).sum = ∑ i ∈ Finset.range n, f i := by
  induction n with
  | zero => simp
  | succ n ih =>
      rw [List.range_succ, List.map_append, List.sum_append,
        Finset.sum_range_succ, ih]
      simp

/-- The comparison list has exactly k(k-1)/2 entries. -/
lemma pairs_length (k : ℕ) : (pairs k).length = k * (k - 1) / 2 := by
  unfold pairs
  rw [List.length_flatMap]
  simp only [Function.comp_def, List.length_map, List.length_drop,
    List.length_range]
  rw [list_map_range_sum]
  rw [Finset.sum_congr rfl fun i _ => show k - (i + 1) = k - 1 - i by omega]
  rw [Finset.sum_range_reflect (fun i => i) k]
  exact Finset.sum_range_id k

/-- Every comparison is an ordered pair of indices below k. -/
lemma pairs_mem {k : ℕ} {p : ℕ × ℕ} (h : p ∈ pairs k) :
    p.1 < p.2 ∧ p.2 < k := by
  unfold pairs at h
  rw [List.mem_flatMap] at h
  obtain ⟨i, hi, hp⟩ := h
  rw [List.mem_map] at hp
  obtain ⟨j, hj, rfl⟩ := hp
  rw [List.mem_iff_getElem] at hj
  obtain ⟨idx, hidx, hj2⟩ := hj
  rw [List.getElem_drop, List.getElem_range] at hj2
  rw [List.length_drop, List.length_range] at hidx
  exact ⟨by omega, by omega⟩

/-- Every ordered pair of indices below k occurs among the comparisons. -/
lemma pairs_mem_of (k i j : ℕ) (hij : i < j) (hjk : j < k) :
    (i, j) ∈ pairs k := by
  unfold pairs
  rw [List.mem_flatMap]
  refine ⟨i, by rw [List.mem_range]; omega, ?_⟩
  rw [List.mem_map]
  refine ⟨j, ?_, rfl⟩
  rw [List.mem_iff_getElem]
  refine ⟨j - (i + 1), ?_, ?_⟩
  · rw [List.length_drop, List.length_range]
    omega
  · rw [List.getElem_drop, List.getElem_range]
    omega

/-- C8: on k groups each of the three post-hoc procedures returns exactly
C(k,2) = k(k-1)/2 comparison rows, generated from the list of unordered
pairs i < j < k in the order induced by the group ordering, and that pair
list is exactly the ordered pairs below k. -/
theorem posthoc_pair_count (provider : List (List ℚ) → ℕ → ℕ → ℚ × ℚ × ℚ)
    (tTest : List ℚ → List ℚ → ℚ × ℚ) (fsf : ℚ → ℤ → ℤ → ℚ)
    (groups : List (List ℚ)) (names : List String) (alpha : ℚ)
    (msW : Option ℚ) (dfW : Option ℤ) (hk : 2 ≤ groups.length) :
    (tukey_hsd provider groups names).length
        = groups.length * (groups.length - 1) / 2
    ∧ (bonferroni tTest groups names alpha).length
        = groups.length * (groups.length - 1) / 2
    ∧ (scheffe fsf groups names msW dfW).length
        = groups.length * (groups.length - 1) / 2
    ∧ (∀ p ∈ pairs groups.length, p.1 < p.2 ∧ p.2 < groups.length)
    ∧ (∀ i j, i < j → j < groups.length → (i, j) ∈ pairs groups.length) := by
  refine ⟨?_, ?_, ?_, fun p hp => pairs_mem hp,
    fun i j hij hjk => pairs_mem_of _ i j hij hjk⟩
  · simp only [tukey_hsd, List.length_map]
    exact pairs_length _
  · simp only [bonferroni, List.length_map]
    exact pairs_length _
  · simp only [scheffe, List.length_map]
    exact pairs_length _

/-- C6: in a Bonferroni run over k groups, provided the raw p-values from
the t-test provider lie in the unit interval, every row has adjusted p
equal to min(raw p times m, 1) with m = C(k,2), hence raw p at most
adjusted p at most 1, and is flagged significant exactly when the
adjusted p is strictly below alpha. -/
theorem bonferroni_adjustment (tTest : List ℚ → List ℚ → ℚ × ℚ)
    (groups : List (List ℚ)) (names : List String) (alpha : ℚ)
    (hk : 2 ≤ groups.length)
    (hp01 : ∀ g1 g2 : List ℚ, 0 ≤ (tTest g1 g2).2 ∧ (tTest g1 g2).2 ≤ 1) :
    ∀ row ∈ bonferroni tTest groups names alpha,
      row.pAdjusted
          = min (row.pRaw * ((groups.length * (groups.length - 1) / 2 : ℕ) : ℚ)) 1
        ∧ row.pRaw ≤ row.pAdjusted ∧ row.pAdjusted ≤ 1
        ∧ (row.significant = true ↔ row.pAdjusted < alpha) := by
  intro row hrow
  simp only [bonferroni] at hrow
  obtain ⟨p, hp, rfl⟩ := List.mem_map.mp hrow
  have hm : (1 : ℚ) ≤ ((groups.length * (groups.length - 1) / 2 : ℕ) : ℚ) := by
    have h2 : 2 * 1 ≤ groups.length * (groups.length - 1) :=
      Nat.mul_le_mul hk (by omega)
    have h3 : 1 ≤ groups.length * (groups.length - 1) / 2 :=
      (Nat.le_div_iff_mul_le (by norm_num)).mpr (by omega)
    exact_mod_cast h3
  obtain ⟨h0, h1⟩ := hp01 (groups.getD p.1 []) (groups.getD p.2 [])
  refine ⟨rfl, ?_, ?_, ?_⟩
  · simp only [bonferroniRow]
    exact le_min (le_mul_of_one_le_right h0 hm) h1
  · simp only [bonferroniRow]
    exact min_le_right _ _
  · simp only [bonferroniRow, decide_eq_true_eq]

/-- Witness for the one-way sum-of-squares partition at a concrete
unbalanced two-group input. -/
theorem oneWay_ss_partition_witness :
    OneWayANOVA.init [[1, 2], [3, 4, 5]] none
        = .ok ⟨[[1, 2], [3, 4, 5]], ["Group 1", "Group 2"], 2, 5⟩
    ∧ ((OneWayANOVA.mk [[1, 2], [3, 4, 5]] ["Group 1", "Group 2"] 2 5).calculate
          (fun _ _ _ => 0)).ssTotal
      = ((OneWayANOVA.mk [[1, 2], [3, 4, 5]] ["Group 1", "Group 2"] 2 5).calculate
          (fun _ _ _ => 0)).ssBetween
        + ((OneWayANOVA.mk [[1, 2], [3, 4, 5]] ["Group 1", "Group 2"] 2 5).calculate
          (fun _ _ _ => 0)).ssWithin :=
  ⟨rfl, oneWay_ss_partition [[1, 2], [3, 4, 5]] none
    ⟨[[1, 2], [3, 4, 5]], ["Group 1", "Group 2"], 2, 5⟩ (fun _ _ _ => 0) rfl⟩

/-- Witness for the residual properties at the same concrete input. -/
theorem oneWay_residuals_witness :
    ((OneWayANOVA.mk [[1, 2], [3, 4, 5]] ["Group 1", "Group 2"] 2 5).calculate
        (fun _ _ _ => 0)).residuals.length = 5
    ∧ ((OneWayANOVA.mk [[1, 2], [3, 4, 5]] ["Group 1", "Group 2"] 2 5).calculate
        (fun _ _ _ => 0)).residuals.sum = 0 :=
  ⟨(oneWay_residuals [[1, 2], [3, 4, 5]] none
      ⟨[[1, 2], [3, 4, 5]], ["Group 1", "Group 2"], 2, 5⟩ (fun _ _ _ => 0) rfl).2.1,
   (oneWay_residuals [[1, 2], [3, 4, 5]] none
      ⟨[[1, 2], [3, 4, 5]], ["Group 1", "Group 2"], 2, 5⟩ (fun _ _ _ => 0) rfl).2.2⟩

/-- Witness for the one-way validation contract: an undersized input is
rejected, and a validly constructed state calculates totally. -/
theorem oneWay_validation_witness :
    (∃ e, OneWayANOVA.init ([[]] : List (List ℚ)) none = .error e)
    ∧ ((OneWayANOVA.mk [[1, 2], [3, 4, 5]] ["Group 1", "Group 2"] 2 5).calculateQ
        (fun _ _ _ => 0)).isSome = true :=
  ⟨(oneWay_validation [[]] none (fun _ _ _ => 0)).1.mpr (Or.inl (by decide)),
   (oneWay_validation [[1, 2], [3, 4, 5]] none (fun _ _ _ => 0)).2
     ⟨[[1, 2], [3, 4, 5]], ["Group 1", "Group 2"], 2, 5⟩ rfl⟩

/-- Witness for the two-way sum-of-squares partition at a concrete
2 by 2 by 2 grid. -/
theorem twoWay_ss_partition_witness :
    TwoWayANOVA.init [[[1, 2], [3, 4]], [[5, 6], [7, 8]]] "Factor A" "Factor B"
        = .ok ⟨[[[1, 2], [3, 4]], [[5, 6], [7, 8]]], "Factor A", "Factor B",
            2, 2, 2, 8⟩
    ∧ ((TwoWayANOVA.mk [[[1, 2], [3, 4]], [[5, 6], [7, 8]]] "Factor A"
          "Factor B" 2 2 2 8).calculate (fun _ _ _ => 0)).ssA
        + ((TwoWayANOVA.mk [[[1, 2], [3, 4]], [[5, 6], [7, 8]]] "Factor A"
            "Factor B" 2 2 2 8).calculate (fun _ _ _ => 0)).ssB
        + ((TwoWayANOVA.mk [[[1, 2], [3, 4]], [[5, 6], [7, 8]]] "Factor A"
            "Factor B" 2 2 2 8).calculate (fun _ _ _ => 0)).ssAB
        + ((TwoWayANOVA.mk [[[1, 2], [3, 4]], [[5, 6], [7, 8]]] "Factor A"
            "Factor B" 2 2 2 8).calculate (fun _ _ _ => 0)).ssError
      = ((TwoWayANOVA.mk [[[1, 2], [3, 4]], [[5, 6], [7, 8]]] "Factor A"
          "Factor B" 2 2 2 8).calculate (fun _ _ _ => 0)).ssTotal :=
  ⟨rfl, twoWay_ss_partition [[[1, 2], [3, 4]], [[5, 6], [7, 8]]] "Factor A"
    "Factor B" ⟨[[[1, 2], [3, 4]], [[5, 6], [7, 8]]], "Factor A", "Factor B",
      2, 2, 2, 8⟩ (fun _ _ _ => 0) rfl⟩

/-- Witness for the two-way degrees-of-freedom identity at the same
grid. -/
theorem twoWay_df_identity_witness :
    ((TwoWayANOVA.mk [[[1, 2], [3, 4]], [[5, 6], [7, 8]]] "Factor A"
        "Factor B" 2 2 2 8).calculate (fun _ _ _ => 0)).dfA
      + ((TwoWayANOVA.mk [[[1, 2], [3, 4]], [[5, 6], [7, 8]]] "Factor A"
          "Factor B" 2 2 2 8).calculate (fun _ _ _ => 0)).dfB
      + ((TwoWayANOVA.mk [[[1, 2], [3, 4]], [[5, 6], [7, 8]]] "Factor A"
          "Factor B" 2 2 2 8).calculate (fun _ _ _ => 0)).dfAB
      + ((TwoWayANOVA.mk [[[1, 2], [3, 4]], [[5, 6], [7, 8]]] "Factor A"
          "Factor B" 2 2 2 8).calculate (fun _ _ _ => 0)).dfError
    = ((TwoWayANOVA.mk [[[1, 2], [3, 4]], [[5, 6], [7, 8]]] "Factor A"
        "Factor B" 2 2 2 8).calculate (fun _ _ _ => 0)).dfTotal :=
  (twoWay_df_identity [[[1, 2], [3, 4]], [[5, 6], [7, 8]]] "Factor A"
    "Factor B" ⟨[[[1, 2], [3, 4]], [[5, 6], [7, 8]]], "Factor A", "Factor B",
      2, 2, 2, 8⟩ (fun _ _ _ => 0) rfl).2.2.2.2.2.2

/-- Witness for the two-way rejection of r = 1: a 2 by 2 grid of
singleton cells produces exactly the replicate validation error. -/
theorem twoWay_replicate_validation_witness :
    TwoWayANOVA.init [[[5], [6]], [[7], [8]]] "Factor A" "Factor B"
      = .error .replicates :=
  (twoWay_replicate_validation [[[5], [6]], [[7], [8]]] "Factor A" "Factor B"
    (by decide) (by decide)).2 (by decide) (by decide) (by decide)

/-- Witness for the Bonferroni adjustment properties on two singleton
groups and a constant t-test provider. -/
theorem bonferroni_adjustment_witness :
    2 ≤ ([[(1 : ℚ)], [3]] : List (List ℚ)).length
    ∧ (bonferroniRow (fun _ _ => ((0 : ℚ), 1 / 2)) [[(1 : ℚ)], [3]] ["A", "B"]
        1 (1 / 20) (0, 1)).pAdjusted ≤ 1 :=
  ⟨by decide,
   (bonferroni_adjustment (fun _ _ => ((0 : ℚ), 1 / 2)) [[(1 : ℚ)], [3]]
      ["A", "B"] (1 / 20) (by decide) (fun g1 g2 => by norm_num)
      (bonferroniRow (fun _ _ => ((0 : ℚ), 1 / 2)) [[(1 : ℚ)], [3]] ["A", "B"]
        1 (1 / 20) (0, 1))
      (List.mem_map_of_mem _ (by decide))).2.2.1⟩

/-- Witness for the degenerate-case behaviour: constant data makes the
one-way and two-way F statistics infinite, and a zero pooled mean square
makes a Scheffe pair F value zero. -/
theorem degenerate_cases_no_fault_witness :
    ((OneWayANOVA.mk [[1, 1], [1, 1]] ["Group 1", "Group 2"] 2 4).calculate
        (fun _ _ _ => 0)).F = FStat.inf
    ∧ ((TwoWayANOVA.mk [[[1, 1], [1, 1]], [[1, 1], [1, 1]]] "Factor A"
          "Factor B" 2 2 2 8).calculate (fun _ _ _ => 0)).fA = FStat.inf
    ∧ (scheffeRow (fun _ _ _ => 0) [[(1 : ℚ)], [1]] ["A", "B"] 0 0 2
        (0, 1)).fScheffe = 0 :=
  ⟨degenerate_cases_no_fault.1
      (OneWayANOVA.mk [[1, 1], [1, 1]] ["Group 1", "Group 2"] 2 4)
      (fun _ _ _ => 0) (by norm_num [OneWayANOVA.calculate, mean]),
   (degenerate_cases_no_fault.2.1
      (TwoWayANOVA.mk [[[1, 1], [1, 1]], [[1, 1], [1, 1]]] "Factor A"
        "Factor B" 2 2 2 8)
      (fun _ _ _ => 0)
      (by norm_num [TwoWayANOVA.calculate, TwoWayANOVA.cellMean,
        TwoWayANOVA.cellSum, TwoWayANOVA.cell, TwoWayANOVA.grandMean,
        TwoWayANOVA.grandTotal, Finset.sum_range_succ, List.getD])).1,
   degenerate_cases_no_fault.2.2 (fun _ _ _ => 0) [[(1 : ℚ)], [1]] ["A", "B"]
     0 0 2 (0, 1) (by norm_num [scheffeSeSq])⟩

/-- Witness for the post-hoc table sizes on two groups: one comparison
row from each procedure. -/
theorem posthoc_pair_count_witness :
    (tukey_hsd (fun _ _ _ => ((0 : ℚ), (0 : ℚ), (0 : ℚ))) [[(1 : ℚ)], [2]]
        ["A", "B"]).length
      = ([[(1 : ℚ)], [2]] : List (List ℚ)).length
          * (([[(1 : ℚ)], [2]] : List (List ℚ)).length - 1) / 2
    ∧ (bonferroni (fun _ _ => ((0 : ℚ), (0 : ℚ))) [[(1 : ℚ)], [2]] ["A", "B"]
        (1 / 20)).length
      = ([[(1 : ℚ)], [2]] : List (List ℚ)).length
          * (([[(1 : ℚ)], [2]] : List (List ℚ)).length - 1) / 2
    ∧ (scheffe (fun _ _ _ => 0) [[(1 : ℚ)], [2]] ["A", "B"] none none).length
      = ([[(1 : ℚ)], [2]] : List (List ℚ)).length
          * (([[(1 : ℚ)], [2]] : List (List ℚ)).length - 1) / 2 :=
  ⟨(posthoc_pair_count (fun _ _ _ => ((0 : ℚ), (0 : ℚ), (0 : ℚ)))
      (fun _ _ => ((0 : ℚ), (0 : ℚ))) (fun _ _ _ => 0) [[(1 : ℚ)], [2]]
      ["A", "B"] (1 / 20) none none (by decide)).1,
   (posthoc_pair_count (fun _ _ _ => ((0 : ℚ), (0 : ℚ), (0 : ℚ)))
      (fun _ _ => ((0 : ℚ), (0 : ℚ))) (fun _ _ _ => 0) [[(1 : ℚ)], [2]]
      ["A", "B"] (1 / 20) none none (by decide)).2.1,
   (posthoc_pair_count (fun _ _ _ => ((0 : ℚ), (0 : ℚ), (0 : ℚ)))
      (fun _ _ => ((0 : ℚ), (0 : ℚ))) (fun _ _ _ => 0) [[(1 : ℚ)], [2]]
      ["A", "B"] (1 / 20) none none (by decide)).2.2.1⟩
